import Mathlib

/-!
Shallow embedding of the Explorer certification core:
`metrics.py` (violation-potential metric), `kernel.py` (versioned ledger),
`sentinel.py` (orchestrator) and `sandbox.py` (isolated chamber).
Numeric values are modelled as rationals; Python dicts as association
lists with first-match lookup.
-/

namespace Explorer

/-- First-match association-list lookup, modelling `dict.get(key, None)`. -/
def dictGet {α : Type} (m : List (String × α)) (k : String) : Option α :=
  match m with
  | [] => none
  | (k2, v) :: rest => if k2 = k then some v else dictGet rest k

/-- The literal `1e-10` used in `metrics.py`. -/
def eps : ℚ := 1 / 10000000000

/-- `metrics.py` `_overflow_ratio(x, ideal, lo, hi)`: exact-value branch when
`abs(hi - lo) < 1e-10`, otherwise distance-from-ideal scaled by the envelope
width plus an extra penalty for leaving the envelope. -/
def overflow_ratio (x ideal lo hi : ℚ) : ℚ :=
  if |hi - lo| < eps then
    if |x - ideal| < eps then 0 else 1
  else
    let base := |x - ideal| / (hi - lo)
    if x < lo then base + (lo - x) / (hi - lo)
    else if hi < x then base + (x - hi) / (hi - lo)
    else base

/-- Default weights `{k: 1.0 for k in stability_envelope}`. -/
def defaultWeights (envelope : List (String × ℚ × ℚ)) : List (String × ℚ) :=
  envelope.map fun e => (e.1, 1)

/-- `weights = weights or {k: 1.0 ...}`: `None` and the empty dict are falsy
in Python, so both are replaced by the defaults. -/
def effWeights (weights : Option (List (String × ℚ)))
    (envelope : List (String × ℚ × ℚ)) : List (String × ℚ) :=
  match weights with
  | none => defaultWeights envelope
  | some ws => if ws = [] then defaultWeights envelope else ws

/-- One iteration of the `for trait in stability_envelope` loop of
`calculate_vp`: skip traits absent from `actual_traits`
(`actual_traits.get(trait, None) is None`), otherwise add
`_overflow_ratio(actual, center.get(trait, 0.0), lo, hi) * weights.get(trait, 1.0)`. -/
def vpStep (actual center w : List (String × ℚ)) (vp : ℚ) (e : String × ℚ × ℚ) : ℚ :=
  match dictGet actual e.1 with
  | none => vp
  | some a =>
      vp + overflow_ratio a ((dictGet center e.1).getD 0) e.2.1 e.2.2
            * ((dictGet w e.1).getD 1)

/-- `metrics.py` `calculate_vp(actual_traits, stability_center, stability_envelope, weights)`. -/
def calculate_vp (actual center : List (String × ℚ)) (envelope : List (String × ℚ × ℚ))
    (weights : Option (List (String × ℚ))) : ℚ :=
  envelope.foldl (vpStep actual center (effWeights weights envelope)) 0

/-- The per-trait contributions of `calculate_vp`, written the way the spec
describes them: one term for every envelope key that is also present in the
actual trait mapping. Used to compare `calculate_vp` against the spec. -/
def vpTerms (actual center w : List (String × ℚ))
    (envelope : List (String × ℚ × ℚ)) : List ℚ :=
  (envelope.filter fun e => (dictGet actual e.1).isSome).map fun e =>
    overflow_ratio ((dictGet actual e.1).getD 0) ((dictGet center e.1).getD 0)
      e.2.1 e.2.2 * ((dictGet w e.1).getD 1)

/-- Spec-side description of `calculate_vp`: the sum over exactly the traits
present in both the envelope and the actual mapping. -/
def vpSpecSum (actual center : List (String × ℚ)) (envelope : List (String × ℚ × ℚ))
    (weights : Option (List (String × ℚ))) : ℚ :=
  (vpTerms actual center (effWeights weights envelope) envelope).sum

/-! ## Ledger (`kernel.py`)

`versions` models the chronologically sorted snapshot files in
`data/kernel/versions/` (filenames embed timestamps, so the sorted directory
listing is the append order); `current` models the `latest.link` pointer as an
index into `versions`; `sovereign_ids` is the in-memory identifier list. -/

structure Kernel where
  sovereign_ids : List String
  versions : List (List String)
  current : Option Nat

/-- `Kernel.amend(new_sovereign_id)`: no-op returning `False` when the
identifier is already present; otherwise append it, write one new snapshot
holding the whole list, atomically repoint `latest.link` at it, return `True`. -/
def Kernel.amend (k : Kernel) (x : String) : Kernel × Bool :=
  if x ∈ k.sovereign_ids then (k, false)
  else
    let ids := k.sovereign_ids ++ [x]
    ({ sovereign_ids := ids
       versions := k.versions ++ [ids]
       current := some k.versions.length }, true)

/-- `Kernel.rollback()`: with fewer than two snapshot files return `False`
and change nothing; otherwise repoint `latest.link` at the second-to-last
snapshot (`versions[-2]`), reload its identifier list, return `True`. -/
def Kernel.rollback (k : Kernel) : Kernel × Bool :=
  if k.versions.length < 2 then (k, false)
  else
    ({ k with sovereign_ids := k.versions.getD (k.versions.length - 2) []
              current := some (k.versions.length - 2) }, true)

/-- `Kernel.get_sovereign_ids()` returns a copy of the identifier list. -/
def Kernel.get_sovereign_ids (k : Kernel) : List String := k.sovereign_ids

/-- The attributes actually defined on class `Kernel` in `kernel.py`
(instance fields set in `__init__` and the three methods). -/
def kernelAttrNames : List String :=
  [("kernel_dir"), ("versions_dir"), ("latest_link"), ("sovereign_ids"),
   ("version_file"), ("_load_state"), ("amend"), ("rollback"), ("get_sovereign_ids")]

/-- `sentinel.py` `Sentinel.handle_violation(offending_uuid)`. Its first
statement is `uuids = self.kernel.get_function_uuids()`: Python resolves the
attribute dynamically, and class `Kernel` defines `get_sovereign_ids` but no
attribute named `get_function_uuids`, so the lookup raises `AttributeError`
before any ledger mutation happens. -/
def handle_violation (k : Kernel) (_offending_uuid : String) : Except String Kernel :=
  if ("get_function_uuids") ∈ kernelAttrNames then
    -- unreachable: the attribute list of class Kernel is fixed above
    Except.ok k
  else
    Except.error ("AttributeError: Kernel object has no attribute get_function_uuids")

/-! ## Isolated chamber (`sandbox.py`)

`IsolatedChamber.run(command)` first calls `self._run_in_job(command)` on a
line that sits outside every `try` block, so an exception raised while
spawning (job-object creation, `Popen`, job assignment) propagates to the
caller. The environment-dependent outcomes are passed in explicitly:
whether `proc.communicate` finished within the timeout window (else
`TimeoutExpired`/watchdog kill), and the `psutil` resource probe
(`none` models the probe raising, which line 71 catches and ignores). -/

structure ChamberConfig where
  timeout_sec : ℚ
  mem_limit_mb : ℚ
  cpu_time_sec : ℚ

/-- `IsolatedChamber(timeout_sec=2, mem_limit_mb=64, cpu_time_sec=2)`. -/
def defaultChamber : ChamberConfig := ⟨2, 64, 2⟩

/-- Outcome of `_run_in_job`: process spawned, or an exception raised. -/
inductive SpawnOutcome where
  | ok : SpawnOutcome
  | raised : String → SpawnOutcome

/-- Outcome of the watchdog thread around `proc.communicate`. -/
structure CommOutcome where
  finished : Bool
  stdout : String
  stderr : String

/-- `IsolatedChamber.run`: spawn (unprotected), watchdog-enforced timeout,
then the `psutil` resource check whose exceptions are swallowed. -/
def IsolatedChamber.run (cfg : ChamberConfig) (spawn : SpawnOutcome)
    (comm : CommOutcome) (probe : Option (ℚ × ℚ)) :
    Except String (String × String × Bool × Bool) :=
  match spawn with
  | SpawnOutcome.raised msg => Except.error msg
  | SpawnOutcome.ok =>
    let timed_out := !comm.finished
    let out := if comm.finished then comm.stdout else ""
    let err := if comm.finished then comm.stderr else ""
    let resource_exceeded :=
      match probe with
      | none => false
      | some mc =>
          decide (cfg.mem_limit_mb * 1024 * 1024 < mc.1) || decide (cfg.cpu_time_sec < mc.2)
    Except.ok (out, err, timed_out, resource_exceeded)

/-! ## Orchestrator (`sentinel.py`)

`run_genesis_experiment` loops `for inp in test_inputs`, measuring each run
and computing its VP inside the loop — but the statements
`vp_values.append(vp)` and `if timed_out or resource_exceeded:
all_terminated = False` (source lines 77–86) are indented at function level,
OUTSIDE the loop body. After the loop, the locals `vp`, `timed_out` and
`resource_exceeded` hold the values of the LAST iteration only, so exactly
one VP is appended and only the last input's flags can clear
`all_terminated`. With an empty input list those locals are unbound and the
function raises, modelled as `none`. Each per-input chamber interaction is
summarised by a `RunOutcome`. -/

structure RunOutcome where
  exec_time_ms : ℚ
  mem_usage_mb : ℚ
  timed_out : Bool
  resource_exceeded : Bool

/-- The trait vector built for one input: `speed_ms`, `memory_mb`
(clamped to `chamber.mem_limit_mb` when the resource quota was exceeded)
and `reliability` (`0 if timed_out else 1`). -/
def traitsOf (cfg : ChamberConfig) (r : RunOutcome) : List (String × ℚ) :=
  [(("speed_ms"), r.exec_time_ms),
   (("memory_mb"), if r.resource_exceeded then cfg.mem_limit_mb else r.mem_usage_mb),
   (("reliability"), if r.timed_out then 0 else 1)]

/-- `Sentinel.run_genesis_experiment`: loop over the inputs, then — at
function level, using only the last iteration's locals — build `vp_values`,
update `all_terminated` and compute
`certified = all_terminated and all(vp < self.vp_threshold for vp in vp_values)`. -/
def run_genesis_experiment (cfg : ChamberConfig) (runs : List RunOutcome)
    (center : List (String × ℚ)) (envelope : List (String × ℚ × ℚ)) (th : ℚ) :
    Option (Bool × List ℚ) :=
  match runs.getLast? with
  | none => none
  | some r =>
    let vp := calculate_vp (traitsOf cfg r) center envelope none
    let vp_values := [vp]
    let all_terminated := !(r.timed_out || r.resource_exceeded)
    some (all_terminated && vp_values.all (fun v => decide (v < th)), vp_values)

/-- `Sentinel.monitor_kernel`: compute the VP of the supplied traits and flag
a violation when `vp > self.vp_threshold` (strictly). -/
def monitor_kernel (operation_traits center : List (String × ℚ))
    (envelope : List (String × ℚ × ℚ)) (th : ℚ) : Bool × ℚ :=
  let vp := calculate_vp operation_traits center envelope none
  (decide (th < vp), vp)

/-! Concrete data used by the claim evaluations below. -/

/-- A run whose chamber call timed out. -/
def badRun : RunOutcome := ⟨500, 0, true, false⟩

/-- A lawful, fast run. -/
def goodRun : RunOutcome := ⟨50, 10, false, false⟩

/-- A second lawful run. -/
def goodRun2 : RunOutcome := ⟨60, 10, false, false⟩

def demoCenter : List (String × ℚ) :=
  [(("speed_ms"), 0), (("memory_mb"), 0), (("reliability"), 1)]

def demoEnvelope : List (String × ℚ × ℚ) :=
  [(("speed_ms"), (0, 100)), (("memory_mb"), (0, 64)), (("reliability"), (1, 1))]

/-- A ledger holding one identifier in one snapshot. -/
def kGenesis : Kernel := ⟨[("a")], [[("a")]], some 0⟩

/-- A ledger holding two identifiers across two snapshots. -/
def kTwo : Kernel := ⟨[("a"), ("b")], [[("a")], [("a"), ("b")]], some 1⟩

/-- C5: calling `amend(x)` twice leaves the identifier set after the second
call equal to the set after the first, the second call returns `added = false`
(and the first returns `true` when `x` was absent); amending an
already-present identifier changes nothing and creates no new version. -/
theorem C5_amend_idempotent (k : Kernel) (x : String) :
    ((k.amend x).1.amend x).1.sovereign_ids = (k.amend x).1.sovereign_ids ∧
    ((k.amend x).1.amend x).2 = false ∧
    (x ∉ k.sovereign_ids → (k.amend x).2 = true) ∧
    (x ∈ k.sovereign_ids → k.amend x = (k, false)) := by
  by_cases h : x ∈ k.sovereign_ids
  · simp [Kernel.amend, h]
  · have hx : x ∈ k.sovereign_ids ++ [x] := by simp
    simp [Kernel.amend, h, hx]

/-- Witness for C5 at a concrete ledger and identifier. -/
theorem C5_amend_idempotent_witness :
    (("b") ∉ kGenesis.sovereign_ids) ∧ (kGenesis.amend ("b")).2 = true ∧
    ((kGenesis.amend ("b")).1.amend ("b")).2 = false ∧
    ((kGenesis.amend ("b")).1.amend ("b")).1.sovereign_ids
      = (kGenesis.amend ("b")).1.sovereign_ids :=
  ⟨by decide, (C5_amend_idempotent kGenesis ("b")).2.2.1 (by decide),
   (C5_amend_idempotent kGenesis ("b")).2.1, (C5_amend_idempotent kGenesis ("b")).1⟩

/-- C6: `rollback()` with fewer than two snapshots returns `false` and leaves
the whole ledger state (identifier set and current-version pointer) unchanged;
with exactly two snapshots it returns `true` and the identifier set becomes
exactly the contents of the first (chronologically earlier) snapshot. -/
theorem C6_rollback_boundary (k : Kernel) :
    (k.versions.length < 2 → k.rollback = (k, false)) ∧
    (∀ v0 v1, k.versions = [v0, v1] →
      (k.rollback).2 = true ∧ (k.rollback).1.sovereign_ids = v0) := by
  constructor
  · intro h
    simp [Kernel.rollback, h]
  · intro v0 v1 hv
    simp [Kernel.rollback, hv]

/-- Witness for C6 at a one-snapshot and a two-snapshot ledger. -/
theorem C6_rollback_boundary_witness :
    (kGenesis.versions.length < 2 ∧ kGenesis.rollback = (kGenesis, false)) ∧
    (kTwo.versions = [[("a")], [("a"), ("b")]] ∧
      (kTwo.rollback).2 = true ∧ (kTwo.rollback).1.sovereign_ids = [("a")]) :=
  ⟨⟨by decide, (C6_rollback_boundary kGenesis).1 (by decide)⟩,
   ⟨rfl, (C6_rollback_boundary kTwo).2 [("a")] [("a"), ("b")] rfl⟩⟩

/-- When the exact-value branch is not taken and `lo ≤ hi`, the envelope
width is strictly positive. -/
lemma width_pos {lo hi : ℚ} (hle : lo ≤ hi) (h : ¬ |hi - lo| < eps) : 0 < hi - lo := by
  have heps : (0:ℚ) < eps := by norm_num [eps]
  have h2 : eps ≤ |hi - lo| := not_lt.mp h
  rw [abs_of_nonneg (by linarith : (0:ℚ) ≤ hi - lo)] at h2
  linarith

/-- Every overflow ratio is non-negative once the envelope satisfies
`lo ≤ hi`. -/
lemma overflow_ratio_nonneg (x ideal lo hi : ℚ) (hle : lo ≤ hi) :
    0 ≤ overflow_ratio x ideal lo hi := by
  by_cases h : |hi - lo| < eps
  · by_cases h2 : |x - ideal| < eps <;> simp [overflow_ratio, h, h2]
  · have hpos := width_pos hle h
    have hbase : 0 ≤ |x - ideal| / (hi - lo) := div_nonneg (abs_nonneg _) hpos.le
    by_cases h1 : x < lo
    · have hextra : 0 ≤ (lo - x) / (hi - lo) := div_nonneg (by linarith) hpos.le
      simp only [overflow_ratio, if_neg h, if_pos h1]
      linarith
    · by_cases h2 : hi < x
      · have hextra : 0 ≤ (x - hi) / (hi - lo) := div_nonneg (by linarith) hpos.le
        simp only [overflow_ratio, if_neg h, if_neg h1, if_pos h2]
        linarith
      · simp only [overflow_ratio, if_neg h, if_neg h1, if_neg h2]
        exact hbase

/-- A successful lookup exhibits a member of the association list. -/
lemma dictGet_mem {α : Type} {k : String} {v : α} :
    ∀ {m : List (String × α)}, dictGet m k = some v → (k, v) ∈ m := by
  intro m
  induction m with
  | nil => intro h; simp [dictGet] at h
  | cons e rest ih =>
    intro h
    obtain ⟨k2, v2⟩ := e
    by_cases hk : k2 = k
    · subst hk
      simp [dictGet] at h
      subst h
      exact List.mem_cons_self _ _
    · simp [dictGet, hk] at h
      exact List.mem_cons_of_mem _ (ih h)

/-- The fold inside `calculate_vp` accumulates exactly the per-trait terms. -/
lemma foldl_vpStep (actual center w : List (String × ℚ)) :
    ∀ (envelope : List (String × ℚ × ℚ)) (acc : ℚ),
      envelope.foldl (vpStep actual center w) acc
        = acc + (vpTerms actual center w envelope).sum := by
  intro envelope
  induction envelope with
  | nil => intro acc; simp [vpTerms]
  | cons e rest ih =>
    intro acc
    rw [List.foldl_cons]
    cases ha : dictGet actual e.1 with
    | none =>
      rw [ih]
      simp [vpTerms, List.filter_cons, ha, vpStep]
    | some a =>
      rw [ih]
      simp [vpTerms, List.filter_cons, ha, vpStep]
      ring

/-- C7: `calculate_vp` is the sum, over exactly those trait keys present in
both the envelope and the actual mapping, of the overflow ratio times the
trait's weight (default 1); envelope traits missing from the actual mapping
contribute nothing, and with `lo ≤ hi` per trait and non-negative weights the
result is non-negative. -/
theorem C7_calculate_vp_spec_sum (actual center : List (String × ℚ))
    (envelope : List (String × ℚ × ℚ)) (weights : Option (List (String × ℚ)))
    (hlohi : ∀ e ∈ envelope, e.2.1 ≤ e.2.2)
    (hw : ∀ p ∈ effWeights weights envelope, 0 ≤ p.2) :
    calculate_vp actual center envelope weights
      = vpSpecSum actual center envelope weights ∧
    0 ≤ calculate_vp actual center envelope weights := by
  have heq : calculate_vp actual center envelope weights
      = vpSpecSum actual center envelope weights := by
    unfold calculate_vp vpSpecSum
    rw [foldl_vpStep actual center (effWeights weights envelope) envelope 0, zero_add]
  refine ⟨heq, ?_⟩
  rw [heq]
  unfold vpSpecSum vpTerms
  apply List.sum_nonneg
  intro q hq
  simp only [List.mem_map] at hq
  obtain ⟨e, he, rfl⟩ := hq
  have hmem : e ∈ envelope := List.mem_of_mem_filter he
  apply mul_nonneg
  · exact overflow_ratio_nonneg _ _ _ _ (hlohi e hmem)
  · cases hwv : dictGet (effWeights weights envelope) e.1 with
    | none => simp [hwv]
    | some wv => simpa [hwv] using hw _ (dictGet_mem hwv)

/-- A one-trait actual mapping used by the C7 witness. -/
def actualW : List (String × ℚ) := [(("a"), 5)]

/-- A two-trait envelope whose second trait is absent from `actualW`. -/
def envW : List (String × ℚ × ℚ) := [(("a"), (0, 10)), (("b"), (0, 1))]

/-- Witness for C7 at concrete mappings with a missing trait. -/
theorem C7_calculate_vp_spec_sum_witness :
    (∀ e ∈ envW, e.2.1 ≤ e.2.2) ∧ (∀ p ∈ effWeights none envW, 0 ≤ p.2) ∧
    calculate_vp actualW [] envW none = vpSpecSum actualW [] envW none ∧
    0 ≤ calculate_vp actualW [] envW none :=
  ⟨by decide, by decide,
   (C7_calculate_vp_spec_sum actualW [] envW none (by decide) (by decide)).1,
   (C7_calculate_vp_spec_sum actualW [] envW none (by decide) (by decide)).2⟩

/-- C9 as stated fails twice on the code: with `lo < hi` but width below the
1e-10 epsilon the exact-value branch answers 0 where the claimed formula
gives 1, and outside the envelope the ratio is not monotone in
`|actual - ideal|` (ideal 100, envelope (0, 1): deviation 1 at actual 101
scores 101 while the larger deviation 98 at actual 2 scores only 99). -/
theorem C9_counterexample :
    ((0:ℚ) < 1/100000000000 - 0 ∧ (0:ℚ) ≤ (1/100000000000:ℚ) ∧
      (1/100000000000:ℚ) ≤ 1/100000000000 ∧
      overflow_ratio (1/100000000000) 0 0 (1/100000000000)
        ≠ |(1/100000000000:ℚ) - 0| / (1/100000000000 - 0)) ∧
    ((0:ℚ) < 1 - 0 ∧ ¬((0:ℚ) ≤ 101 ∧ (101:ℚ) ≤ 1) ∧ ¬((0:ℚ) ≤ 2 ∧ (2:ℚ) ≤ 1) ∧
      |(101:ℚ) - 100| ≤ |(2:ℚ) - 100| ∧
      ¬ overflow_ratio 101 100 0 1 ≤ overflow_ratio 2 100 0 1) := by
  constructor
  · have h1 : overflow_ratio (1/100000000000) 0 0 (1/100000000000) = 0 := by
      norm_num [overflow_ratio, eps, abs_of_nonneg]
    refine ⟨by norm_num, by norm_num, le_refl _, ?_⟩
    rw [h1]
    norm_num [abs_of_nonneg]
  · have h2 : overflow_ratio 2 100 0 1 = 99 := by norm_num [overflow_ratio, eps]
    have h3 : overflow_ratio 101 100 0 1 = 101 := by norm_num [overflow_ratio, eps]
    refine ⟨by norm_num, by norm_num, by norm_num, by norm_num, ?_⟩
    rw [h2, h3]
    norm_num

/-- C9 amended: when the envelope width is at least the code's 1e-10 epsilon,
the overflow ratio equals `|actual - ideal| / (hi - lo)` for `lo ≤ actual ≤ hi`,
and outside the envelope it is non-decreasing in the distance from the
envelope — non-decreasing in `actual` above `hi`, non-increasing below `lo` —
though not in general in `|actual - ideal|`. -/
theorem C9_overflow_ratio_amended (ideal lo hi : ℚ) (h : eps ≤ hi - lo) :
    (∀ x, lo ≤ x → x ≤ hi →
      overflow_ratio x ideal lo hi = |x - ideal| / (hi - lo)) ∧
    (∀ x1 x2, hi < x1 → x1 ≤ x2 →
      overflow_ratio x1 ideal lo hi ≤ overflow_ratio x2 ideal lo hi) ∧
    (∀ x1 x2, x2 ≤ x1 → x1 < lo →
      overflow_ratio x1 ideal lo hi ≤ overflow_ratio x2 ideal lo hi) := by
  have heps : (0:ℚ) < eps := by norm_num [eps]
  have hpos : 0 < hi - lo := lt_of_lt_of_le heps h
  have habs : ¬ |hi - lo| < eps := not_lt.mpr (by rw [abs_of_nonneg hpos.le]; exact h)
  refine ⟨?_, ?_, ?_⟩
  · intro x hx1 hx2
    simp only [overflow_ratio, if_neg habs, if_neg (not_lt.mpr hx1),
      if_neg (not_lt.mpr hx2)]
  · intro x1 x2 h1 h12
    have hx1lo : ¬ x1 < lo := by linarith
    have hx2lo : ¬ x2 < lo := by linarith
    have h2 : hi < x2 := by linarith
    simp only [overflow_ratio, if_neg habs, if_neg hx1lo, if_neg hx2lo,
      if_pos h1, if_pos h2]
    rw [div_add_div_same, div_add_div_same, div_le_div_iff_of_pos_right hpos]
    rcases abs_cases (x1 - ideal) with ⟨e1, s1⟩ | ⟨e1, s1⟩ <;>
      rcases abs_cases (x2 - ideal) with ⟨e2, s2⟩ | ⟨e2, s2⟩ <;>
      rw [e1, e2] <;> linarith
  · intro x1 x2 h21 h1
    have hx2lo : x2 < lo := by linarith
    have hx1hi : ¬ hi < x1 := by linarith
    have hx2hi : ¬ hi < x2 := by linarith
    simp only [overflow_ratio, if_neg habs, if_pos h1, if_pos hx2lo]
    rw [div_add_div_same, div_add_div_same, div_le_div_iff_of_pos_right hpos]
    rcases abs_cases (x1 - ideal) with ⟨e1, s1⟩ | ⟨e1, s1⟩ <;>
      rcases abs_cases (x2 - ideal) with ⟨e2, s2⟩ | ⟨e2, s2⟩ <;>
      rw [e1, e2] <;> linarith

/-- Witness for the amended C9 at envelope (0, 1), ideal 0. -/
theorem C9_overflow_ratio_amended_witness :
    eps ≤ (1:ℚ) - 0 ∧ overflow_ratio (1/2) 0 0 1 = |(1/2:ℚ) - 0| / (1 - 0) ∧
    overflow_ratio 2 0 0 1 ≤ overflow_ratio 3 0 0 1 :=
  ⟨by norm_num [eps],
   (C9_overflow_ratio_amended 0 0 1 (by norm_num [eps])).1 (1/2)
     (by norm_num) (by norm_num),
   (C9_overflow_ratio_amended 0 0 1 (by norm_num [eps])).2.1 2 3
     (by norm_num) (by norm_num)⟩

/-- C8: for an exact-value trait (`|hi - lo|` within the 1e-10 epsilon of
zero) the overflow ratio is 0 when the actual value is within epsilon of the
ideal and exactly 1 for any other actual value, independent of the magnitude
of the deviation. -/
theorem C8_exact_trait_penalty (x ideal lo hi : ℚ) (h : |hi - lo| < eps) :
    (|x - ideal| < eps → overflow_ratio x ideal lo hi = 0) ∧
    (eps ≤ |x - ideal| → overflow_ratio x ideal lo hi = 1) := by
  unfold overflow_ratio
  rw [if_pos h]
  constructor
  · intro h2; rw [if_pos h2]
  · intro h2; rw [if_neg (not_lt.mpr h2)]

/-- Witness for C8 at a degenerate envelope `(5, 5)`. -/
theorem C8_exact_trait_penalty_witness :
    |(5:ℚ) - 5| < eps ∧ overflow_ratio 7 7 5 5 = 0 ∧
    overflow_ratio (7 + 1/1000000) 7 5 5 = 1 :=
  ⟨by norm_num [eps],
   (C8_exact_trait_penalty 7 7 5 5 (by norm_num [eps])).1 (by norm_num [eps]),
   (C8_exact_trait_penalty (7 + 1/1000000) 7 5 5 (by norm_num [eps])).2
     (by rw [show (7 + 1/1000000 - 7 : ℚ) = 1/1000000 by ring, abs_of_nonneg] <;>
         norm_num [eps])⟩

/-- C1 is violated by the code: the statements updating `all_terminated` from
`timed_out`/`resource_exceeded` sit outside the input loop (source lines
85–86), so a timeout on any non-last input cannot block certification. Here
the first of two inputs timed out, yet the experiment certifies. -/
theorem C1_nonlast_timeout_still_certifies :
    badRun.timed_out = true ∧
    run_genesis_experiment defaultChamber [badRun, goodRun] demoCenter demoEnvelope 1
      = some (true, [21/32]) := by
  refine ⟨rfl, ?_⟩
  norm_num +decide [run_genesis_experiment, calculate_vp, vpStep, dictGet, effWeights,
    defaultWeights, demoCenter, demoEnvelope, traitsOf, defaultChamber, goodRun, badRun,
    overflow_ratio, eps, abs_of_nonneg, List.getLast?]

/-- C2 is violated by the code: with two test inputs the returned VP list has
exactly one element (the last input's VP), because `vp_values.append(vp)`
sits outside the loop (source line 77). -/
theorem C2_vp_list_has_one_element :
    (run_genesis_experiment defaultChamber [goodRun2, goodRun] demoCenter demoEnvelope 1).map
      (fun p => p.2.length) = some 1 := rfl

/-- C3 is violated by the code: every `handle_violation` call raises
`AttributeError` at its first statement, for any ledger state and any
identifier, so it never removes the identifier, never amends and never rolls
back. -/
theorem C3_handle_violation_always_raises (k : Kernel) (uuid : String) :
    handle_violation k uuid
      = Except.error ("AttributeError: Kernel object has no attribute get_function_uuids") :=
  rfl

/-- C4 is violated by the code: `proc, job = self._run_in_job(command)` is
outside every `try`, so an exception raised while spawning propagates out of
`IsolatedChamber.run` instead of becoming a zero-output, non-timed-out,
non-resource-exceeded result. -/
theorem C4_counterexample :
    IsolatedChamber.run defaultChamber (SpawnOutcome.raised ("WinError 5")) ⟨true, "", ""⟩ none
      = Except.error ("WinError 5") ∧
    IsolatedChamber.run defaultChamber (SpawnOutcome.raised ("WinError 5")) ⟨true, "", ""⟩ none
      ≠ Except.ok (("", "", false, false)) :=
  ⟨rfl, by simp [IsolatedChamber.run]⟩

/-- C4 amended: an exception raised while spawning propagates out of the
chamber's `run` (the orchestrator's own `try` in `run_genesis_experiment`
catches it, not the chamber), while an exception in the post-run resource
probe is caught inside `run` and leaves `resource_exceeded = false`. -/
theorem C4_spawn_exception_propagates (cfg : ChamberConfig) (msg : String)
    (comm comm2 : CommOutcome) (probe : Option (ℚ × ℚ)) :
    IsolatedChamber.run cfg (SpawnOutcome.raised msg) comm probe = Except.error msg ∧
    IsolatedChamber.run cfg SpawnOutcome.ok comm2 none
      = Except.ok (if comm2.finished then comm2.stdout else "",
          if comm2.finished then comm2.stderr else "", !comm2.finished, false) :=
  ⟨rfl, rfl⟩

/-- C10: a VP exactly equal to the threshold is simultaneously not a
violation for `monitor_kernel` (whose test is strict `vp > threshold`) and
not certifiable for `run_genesis_experiment` (whose test is strict
`vp < threshold`). -/
theorem C10_threshold_tie (cfg : ChamberConfig) (r : RunOutcome)
    (runs : List RunOutcome) (center : List (String × ℚ))
    (envelope : List (String × ℚ × ℚ)) (th : ℚ)
    (h : calculate_vp (traitsOf cfg r) center envelope none = th) :
    (monitor_kernel (traitsOf cfg r) center envelope th).1 = false ∧
    (run_genesis_experiment cfg (runs ++ [r]) center envelope th).map Prod.fst
      = some false := by
  constructor
  · simp [monitor_kernel, h]
  · have hlast : (runs ++ [r]).getLast? = some r := by
      simp [List.getLast?_concat]
    simp [run_genesis_experiment, hlast, h]

/-- A lawful run whose single envelope trait scores exactly 1/2. -/
def rHalf : RunOutcome := ⟨50, 0, false, false⟩

def centerT : List (String × ℚ) := [(("speed_ms"), 0)]

def envT : List (String × ℚ × ℚ) := [(("speed_ms"), (0, 100))]

/-- Witness for C10 at VP = threshold = 1/2. -/
theorem C10_threshold_tie_witness :
    calculate_vp (traitsOf defaultChamber rHalf) centerT envT none = 1/2 ∧
    (monitor_kernel (traitsOf defaultChamber rHalf) centerT envT (1/2)).1 = false ∧
    (run_genesis_experiment defaultChamber [rHalf] centerT envT (1/2)).map Prod.fst
      = some false := by
  have h : calculate_vp (traitsOf defaultChamber rHalf) centerT envT none = 1/2 := by
    norm_num +decide [calculate_vp, vpStep, dictGet, effWeights, defaultWeights,
      traitsOf, defaultChamber, rHalf, centerT, envT, overflow_ratio, eps, abs_of_nonneg]
  exact ⟨h, (C10_threshold_tie defaultChamber rHalf [] centerT envT (1/2) h).1,
         (C10_threshold_tie defaultChamber rHalf [] centerT envT (1/2) h).2⟩

end Explorer
